import Mathlib

/-!
Shallow embedding of the ICE (RFC 8445) connectivity-establishment logic of
`docker-examples/rfc5389-rfc8445-nat-traversal/scripts/ice-peer.py`.

Pure computations (priority formulas, pairing, STUN response parsing) are
translated directly as Lean functions on `Int`/`Nat`/`List` (Python integers
are unbounded, so no modular wrap-around is involved anywhere).  Stateful and
effectful steps (socket binds, datagram sends/receives, timeouts) are modelled
by passing the outcome of each environment interaction explicitly: a fallible
socket operation becomes an `Except`/`Option` value or an oracle function
supplied as an argument, and the mutation of a `CandidatePair`'s fields becomes
a pure list transformation returning the updated pairs.
-/

/-- `CandidateType` enum from ice-peer.py. -/
inductive CandidateType where
  | host
  | srflx
  | prflx
  | relay
deriving DecidableEq, Repr

/-- `CheckState` enum from ice-peer.py. -/
inductive CheckState where
  | waiting
  | in_progress
  | succeeded
  | failed
  | frozen
deriving DecidableEq, Repr

/-- `ICECandidate` dataclass.  `priority` is `Int` because Python integers are
signed and unbounded. -/
structure ICECandidate where
  foundation : String
  component : Int
  transport : String
  priority : Int
  address : String
  port : Nat
  type : CandidateType
  related_address : Option String
  related_port : Option Nat
deriving DecidableEq, Repr

/-- `CandidatePair` dataclass.  The Python field `local` is a Lean keyword, so
it is named `local_c` here. -/
structure CandidatePair where
  local_c : ICECandidate
  remote : ICECandidate
  priority : Int
  state : CheckState
  nominated : Bool
deriving DecidableEq, Repr

/-- The `type_preferences` table inside `ICEPeer.calculate_priority`. -/
def type_preferences : CandidateType → Int
  | .host => 126
  | .prflx => 110
  | .srflx => 100
  | .relay => 0

/-- `ICEPeer.calculate_priority`:
`(type_pref << 24) + (local_pref << 8) + (256 - component)`.
Python left shift on an unbounded int is exact multiplication by a power of
two, so `x << n` is rendered as `x * 2 ^ n`. -/
def calculate_priority (candidate_type : CandidateType) (local_pref : Int)
    (component : Int) : Int :=
  let type_pref := type_preferences candidate_type
  type_pref * 2 ^ 24 + local_pref * 2 ^ 8 + (256 - component)

/-- The pair-priority computation inlined in `ICEPeer.create_candidate_pairs`:
`G = min(local.priority, remote.priority)`, `D = max(...)`,
`priority = (1 << 32) * G + 2 * D + (1 if local.priority > remote.priority else 0)`. -/
def pair_priority (local_priority remote_priority : Int) : Int :=
  let G := min local_priority remote_priority
  let D := max local_priority remote_priority
  (2 ^ 32) * G + 2 * D + (if local_priority > remote_priority then 1 else 0)

/-- Construction of one `CandidatePair(local, remote, priority)` in
`create_candidate_pairs`; dataclass defaults give `state=FROZEN`,
`nominated=False`. -/
def mk_pair (l r : ICECandidate) : CandidatePair :=
  { local_c := l
    remote := r
    priority := pair_priority l.priority r.priority
    state := .frozen
    nominated := false }

/-- Comparison used by `pairs.sort(key=lambda p: p.priority, reverse=True)`:
a stable sort into descending priority order. -/
def pair_le (a b : CandidatePair) : Bool :=
  decide (b.priority ≤ a.priority)

/-- `ICEPeer.create_candidate_pairs`: nested loops over local × remote
candidates keeping transport-matching combinations, then a stable descending
sort by pair priority. -/
def create_candidate_pairs (local_candidates remote_candidates : List ICECandidate) :
    List CandidatePair :=
  let pairs := local_candidates.flatMap (fun l =>
    (remote_candidates.filter (fun r => l.transport == r.transport)).map
      (fun r => mk_pair l r))
  pairs.mergeSort pair_le

/-- Outcome of a raising socket operation in the embedding. -/
inductive SockError where
  | bind_failed : String → SockError
  | connect_failed : String → SockError
deriving DecidableEq, Repr

/-- `ICEPeer.get_local_interfaces`: the UDP-connect trick that discovers the
outbound local IP is modelled by its outcome `detect_local_ip`; on success the
single detected IP is returned, on any exception the bare `except` falls back
to `127.0.0.1`. -/
def get_local_interfaces (detect_local_ip : Except SockError String) : List String :=
  match detect_local_ip with
  | .ok ip => [ip]
  | .error _ => ["127.0.0.1"]

/-- `ICEPeer.gather_host_candidates`: for the interface at 0-based index `i`,
bind an ephemeral UDP port (`bind_port`, which may raise) and build a HOST
candidate with `foundation=str(i+1)` and
`priority=calculate_priority(HOST, 65535 - i*1000)` (defaults `component=1`).
There is no `try` around the bind, so a bind failure propagates out of the
whole loop and discards every candidate accumulated so far. -/
def gather_host_candidates (bind_port : String → Except SockError Nat) :
    List String → Nat → Except SockError (List ICECandidate)
  | [], _ => .ok []
  | interface :: rest, i =>
    match bind_port interface with
    | .error e => .error e
    | .ok port =>
      match gather_host_candidates bind_port rest (i + 1) with
      | .error e => .error e
      | .ok cs =>
        .ok ({ foundation := toString (i + 1)
               component := 1
               transport := "udp"
               priority := calculate_priority .host (65535 - (i : Int) * 1000) 1
               address := interface
               port := port
               type := .host
               related_address := none
               related_port := none } :: cs)

/-- `STUNClient.MAGIC_COOKIE`. -/
def MAGIC_COOKIE : Nat := 0x2112A442

/-- `STUNClient.XOR_MAPPED_ADDRESS` attribute type. -/
def XOR_MAPPED_ADDRESS : Nat := 0x0020

/-- Byte access used by the `struct.unpack` translations; every use below is
guarded by a length check, exactly where Python's unpack is guaranteed its
slice has the required length. -/
def byte_at (bs : List Nat) (i : Nat) : Nat := bs.getD i 0

/-- Big-endian 16-bit read (`>H` at byte offset `i`). -/
def be16 (bs : List Nat) (i : Nat) : Nat :=
  256 * byte_at bs i + byte_at bs (i + 1)

/-- Big-endian 32-bit read (`>I` at byte offset `i`). -/
def be32 (bs : List Nat) (i : Nat) : Nat :=
  256 ^ 3 * byte_at bs i + 256 ^ 2 * byte_at bs (i + 1) +
    256 * byte_at bs (i + 2) + byte_at bs (i + 3)

/-- `socket.inet_ntoa(struct.pack('>I', n))`: dotted-quad rendering of a
32-bit address. -/
def inet_ntoa (n : Nat) : String :=
  toString (n / 2 ^ 24 % 256) ++ "." ++ toString (n / 2 ^ 16 % 256) ++ "." ++
    toString (n / 2 ^ 8 % 256) ++ "." ++ toString (n % 256)

/-- The attribute-scanning `while` loop of
`STUNClient.discover_public_address`, starting at `offset = 20`:
stop (return `None`) when `offset` passes the end, break (also `None`) when
fewer than 4 header bytes remain, decode `XOR-MAPPED-ADDRESS` (attribute type
`0x0020` with at least 8 value bytes) by undoing the XOR obfuscation, and
otherwise skip `4 + attr_len` bytes plus padding to the next 4-byte boundary.
Returns the decoded `(addr_int, port)`. -/
def scan_attributes (resp : List Nat) (offset : Nat) : Option (Nat × Nat) :=
  if _h : offset < resp.length then
    if offset + 4 > resp.length then none
    else
      let attr_len := be16 resp (offset + 2)
      let attr_value := (resp.drop (offset + 4)).take attr_len
      if be16 resp offset = XOR_MAPPED_ADDRESS ∧ 8 ≤ attr_value.length then
        let xor_port := be16 attr_value 2
        let xor_addr := be32 attr_value 4
        some (xor_addr ^^^ MAGIC_COOKIE, xor_port ^^^ (MAGIC_COOKIE >>> 16))
      else
        scan_attributes resp
          (offset + 4 + attr_len + (if attr_len % 4 = 0 then 0 else 4 - attr_len % 4))
  else none
termination_by resp.length - offset
decreasing_by omega

/-- Parsing part of `STUNClient.discover_public_address`, applied to a
received datagram `resp` (a byte list): responses shorter than 20 bytes and
responses whose echoed transaction id (bytes 8..20 of the header) differs from
the request's are discarded; otherwise the attributes are scanned for
`XOR-MAPPED-ADDRESS`. -/
def parse_stun_outcome (transaction_id : List Nat) (resp : List Nat) :
    Option (String × Nat) :=
  if resp.length < 20 then none
  else if (resp.drop 8).take 12 ≠ transaction_id then none
  else
    match scan_attributes resp 20 with
    | some (addr_int, port) => some (inet_ntoa addr_int, port)
    | none => none

/-- `STUNClient.discover_public_address`: the network interaction is modelled
by its outcome `net` — `none` when the send raised or the 5-second `recvfrom`
timed out (any exception is caught and turned into `None` by the outer
`except`), `some resp` when a datagram arrived. -/
def discover_public_address (transaction_id : List Nat) (net : Option (List Nat)) :
    Option (String × Nat) :=
  match net with
  | none => none
  | some resp => parse_stun_outcome transaction_id resp

/-- `ICEPeer.gather_server_reflexive_candidates`, given the result of
`discover_public_address`: no public address means zero candidates; otherwise
one SRFLX candidate whose related address/port come from
`local_candidates[0]` (or `"0.0.0.0"`/`0` when the local set is empty), with
`priority=calculate_priority(SRFLX)` (defaults `local_pref=65535`,
`component=1`). -/
def gather_server_reflexive_candidates (local_candidates : List ICECandidate)
    (public_addr : Option (String × Nat)) : List ICECandidate :=
  match public_addr with
  | none => []
  | some (public_ip, public_port) =>
    [{ foundation := "100"
       component := 1
       transport := "udp"
       priority := calculate_priority .srflx 65535 1
       address := public_ip
       port := public_port
       type := .srflx
       related_address := some (((local_candidates.head?).map (·.address)).getD "0.0.0.0")
       related_port := some (((local_candidates.head?).map (·.port)).getD 0) }]

/-- Candidate ordering of
`self.local_candidates.sort(key=lambda c: c.priority, reverse=True)`. -/
def cand_le (a b : ICECandidate) : Bool :=
  decide (b.priority ≤ a.priority)

/-- Final step of `ICEPeer.gather_candidates`: host candidates then
server-reflexive candidates are appended to `local_candidates`, which is then
stably sorted by priority descending. -/
def gather_candidates (host_candidates srflx_candidates : List ICECandidate) :
    List ICECandidate :=
  (host_candidates ++ srflx_candidates).mergeSort cand_le

/-- Outcome of the probe `recvfrom` in `perform_connectivity_check`:
a 2-second timeout, a datagram from some `(address, port)`, or any other
socket exception. -/
inductive RecvOutcome where
  | timeout
  | datagram : String → Nat → RecvOutcome
  | recv_error
deriving DecidableEq, Repr

/-- Environment of one connectivity probe: whether the socket
creation/bind/sendto sequence raised, and what the subsequent `recvfrom`
produced (only consulted when the setup did not raise). -/
structure CheckEnv where
  setup_error : Bool
  recv : RecvOutcome
deriving DecidableEq, Repr

/-- `ICEPeer.perform_connectivity_check` on one pair: set `IN_PROGRESS`, run
the probe, and classify.  A datagram from exactly the remote candidate's
`(address, port)` yields `SUCCEEDED` and `True`; a timeout, a datagram from
any other source, or any raised exception yields `FAILED` and `False` (the
outer `except Exception` and the `finally`-closed socket make every exit path
return a Bool with the pair in a terminal state).  Returns the Bool result
together with the updated pair. -/
def perform_connectivity_check (pair : CandidatePair) (env : CheckEnv) :
    Bool × CandidatePair :=
  let pair1 := { pair with state := CheckState.in_progress }
  if env.setup_error then
    (false, { pair1 with state := CheckState.failed })
  else
    match env.recv with
    | .datagram addr port =>
      if addr = pair1.remote.address ∧ port = pair1.remote.port then
        (true, { pair1 with state := CheckState.succeeded })
      else
        (false, { pair1 with state := CheckState.failed })
    | .timeout => (false, { pair1 with state := CheckState.failed })
    | .recv_error => (false, { pair1 with state := CheckState.failed })

/-- First phase of `ICEPeer.run_connectivity_checks`:
`for pair in self.candidate_pairs[:3]: pair.state = CheckState.WAITING`. -/
def unfreeze_top_pairs (pairs : List CandidatePair) : List CandidatePair :=
  (pairs.take 3).map (fun p => { p with state := CheckState.waiting }) ++ pairs.drop 3

/-- Second phase: every WAITING pair is probed (concurrently in the source;
each probe touches only its own pair, so the batch is a per-element update).
`env_of i` is the probe environment of the pair at index `i`. -/
def run_checks (env_of : Nat → CheckEnv) (pairs : List CandidatePair) :
    List CandidatePair :=
  pairs.enum.map (fun ip =>
    if ip.2.state = CheckState.waiting then
      (perform_connectivity_check ip.2 (env_of ip.1)).2
    else ip.2)

/-- Third phase: scan the pair list in order, set `nominated` on the first
SUCCEEDED pair and stop; the returned Bool is the method's result (`False`
exactly when no pair was nominated). -/
def nominate_first : List CandidatePair → List CandidatePair × Bool
  | [] => ([], false)
  | p :: ps =>
    if p.state = CheckState.succeeded then
      ({ p with nominated := true } :: ps, true)
    else
      let r := nominate_first ps
      (p :: r.1, r.2)

/-- `ICEPeer.run_connectivity_checks`: unfreeze the top-3 pairs, probe every
WAITING pair, then nominate the first SUCCEEDED pair in list order. -/
def run_connectivity_checks (env_of : Nat → CheckEnv) (pairs : List CandidatePair) :
    List CandidatePair × Bool :=
  nominate_first (run_checks env_of (unfreeze_top_pairs pairs))

/-! ### Helper lemmas -/

/-- `perform_connectivity_check` always leaves the pair in a terminal state and
returns `true` exactly on `SUCCEEDED`; it touches no field other than `state`. -/
lemma perform_check_cases (pair : CandidatePair) (env : CheckEnv) :
    ((perform_connectivity_check pair env).2.state = CheckState.succeeded ∨
      (perform_connectivity_check pair env).2.state = CheckState.failed) ∧
    ((perform_connectivity_check pair env).1 = true ↔
      (perform_connectivity_check pair env).2.state = CheckState.succeeded) ∧
    (perform_connectivity_check pair env).2.priority = pair.priority ∧
    (perform_connectivity_check pair env).2.nominated = pair.nominated ∧
    (perform_connectivity_check pair env).2.local_c = pair.local_c ∧
    (perform_connectivity_check pair env).2.remote = pair.remote := by
  rcases env with ⟨se, recv⟩
  rcases se <;> rcases recv <;>
    simp only [perform_connectivity_check] <;> (try split_ifs) <;> simp_all

lemma gather_host_priority (interfaces : List String)
    (bind_port : String → Except SockError Nat) (k : Nat)
    (cs : List ICECandidate)
    (hcs : gather_host_candidates bind_port interfaces k = .ok cs) :
    ∀ i (h : i < cs.length),
      (cs.get ⟨i, h⟩).priority
        = calculate_priority .host (65535 - ((k + i : Nat) : Int) * 1000) 1 := by
  induction interfaces generalizing k cs with
  | nil =>
    simp only [gather_host_candidates, Except.ok.injEq] at hcs
    subst hcs
    intro i h
    simp at h
  | cons itf rest ih =>
    rw [gather_host_candidates] at hcs
    cases hb : bind_port itf with
    | error e => rw [hb] at hcs; simp at hcs
    | ok port =>
      rw [hb] at hcs
      cases hr : gather_host_candidates bind_port rest (k + 1) with
      | error e => rw [hr] at hcs; simp at hcs
      | ok cs' =>
        rw [hr] at hcs
        simp only [Except.ok.injEq] at hcs
        subst hcs
        intro i h
        cases i with
        | zero => simp
        | succ j =>
          have hj : j < cs'.length := by simpa using h
          have := ih (k + 1) cs' hr j hj
          have hidx : k + 1 + j = k + (j + 1) := by omega
          rw [hidx] at this
          simpa using this

/-! ### C1 -/

/-- C1: every pair produced by `create_candidate_pairs` carries the RFC 8445
§6.1.2.3 pair priority `(2^32)*G + 2*D + (1 if local.priority > remote.priority
else 0)` with `G`/`D` the min/max of the two candidate priorities. -/
theorem C1_pair_priority_formula (L R : List ICECandidate) (p : CandidatePair)
    (hp : p ∈ create_candidate_pairs L R) :
    p.priority = 2 ^ 32 * min p.local_c.priority p.remote.priority
      + 2 * max p.local_c.priority p.remote.priority
      + (if p.local_c.priority > p.remote.priority then 1 else 0) := by
  unfold create_candidate_pairs at hp
  rw [(List.mergeSort_perm _ _).mem_iff] at hp
  simp only [List.mem_flatMap, List.mem_map, List.mem_filter] at hp
  obtain ⟨l, _, r, _, rfl⟩ := hp
  simp [mk_pair, pair_priority]

/-- Concrete HOST candidate used by witnesses. -/
def wit_local : ICECandidate :=
  { foundation := "1"
    component := 1
    transport := "udp"
    priority := 2130706431
    address := "192.168.1.5"
    port := 50000
    type := .host
    related_address := none
    related_port := none }

/-- Concrete remote HOST candidate used by witnesses. -/
def wit_remote : ICECandidate :=
  { foundation := "1"
    component := 1
    transport := "udp"
    priority := 2130450431
    address := "192.168.1.6"
    port := 51000
    type := .host
    related_address := none
    related_port := none }

theorem C1_witness :
    (mk_pair wit_local wit_remote).priority
      = 2 ^ 32 * min wit_local.priority wit_remote.priority
      + 2 * max wit_local.priority wit_remote.priority
      + (if wit_local.priority > wit_remote.priority then 1 else 0) :=
  C1_pair_priority_formula [wit_local] [wit_remote] (mk_pair wit_local wit_remote)
    (by unfold create_candidate_pairs
        exact (List.mergeSort_perm _ _).mem_iff.mpr (by decide))

/-! ### C2 -/

/-- C2: `calculate_priority` is
`(type_preference << 24) + (local_preference << 8) + (256 - component_id)` with
HOST=126, PEER_REFLEXIVE=110, SERVER_REFLEXIVE=100, RELAY=0; and during host
gathering started at interface index `k` (the source starts at `k = 0`) the
candidate at offset `i` uses local preference `65535 - (k+i)*1000`. -/
theorem C2_candidate_priority (lp c : Int) :
    (calculate_priority .host lp c = 126 * 2 ^ 24 + lp * 2 ^ 8 + (256 - c)) ∧
    (calculate_priority .prflx lp c = 110 * 2 ^ 24 + lp * 2 ^ 8 + (256 - c)) ∧
    (calculate_priority .srflx lp c = 100 * 2 ^ 24 + lp * 2 ^ 8 + (256 - c)) ∧
    (calculate_priority .relay lp c = 0 * 2 ^ 24 + lp * 2 ^ 8 + (256 - c)) ∧
    (∀ (bind_port : String → Except SockError Nat) (interfaces : List String)
        (k : Nat) (cs : List ICECandidate),
      gather_host_candidates bind_port interfaces k = .ok cs →
      ∀ i (h : i < cs.length),
        (cs.get ⟨i, h⟩).priority
          = calculate_priority .host (65535 - ((k + i : Nat) : Int) * 1000) 1) := by
  refine ⟨by simp [calculate_priority, type_preferences],
    by simp [calculate_priority, type_preferences],
    by simp [calculate_priority, type_preferences],
    by simp [calculate_priority, type_preferences],
    fun bind_port interfaces k cs hcs => gather_host_priority interfaces bind_port k cs hcs⟩

/-- Bind oracle that always succeeds with port 50000 (used by witnesses). -/
def bind_ok : String → Except SockError Nat := fun _ => Except.ok 50000

/-- The host-candidate list `gather_host_candidates bind_ok
["10.0.0.1", "10.0.0.2"] 0` evaluates to. -/
def wit_host_cs : List ICECandidate :=
  [{ foundation := "1"
     component := 1
     transport := "udp"
     priority := calculate_priority .host 65535 1
     address := "10.0.0.1"
     port := 50000
     type := .host
     related_address := none
     related_port := none },
   { foundation := "2"
     component := 1
     transport := "udp"
     priority := calculate_priority .host 64535 1
     address := "10.0.0.2"
     port := 50000
     type := .host
     related_address := none
     related_port := none }]

theorem C2_witness :
    (wit_host_cs.get ⟨1, by decide⟩).priority
      = calculate_priority .host (65535 - ((0 + 1 : Nat) : Int) * 1000) 1 :=
  (C2_candidate_priority 0 0).2.2.2.2 bind_ok ["10.0.0.1", "10.0.0.2"] 0 wit_host_cs
    (by rfl) 1 (by decide)

/-! ### C8 -/

/-- C8: swapping local and remote flips the tie-break bit, so the two pair
priorities differ whenever the candidate priorities differ, while `G` (min)
and `D` (max) are symmetric under the swap. -/
theorem C8_pair_priority_asymmetry (a b : Int) (h : a ≠ b) :
    pair_priority a b ≠ pair_priority b a ∧ min a b = min b a ∧ max a b = max b a := by
  refine ⟨?_, min_comm a b, max_comm a b⟩
  simp only [pair_priority, min_def, max_def]
  rcases lt_or_gt_of_ne h with h1 | h1 <;> split_ifs <;> omega

theorem C8_witness :
    (1 : Int) ≠ 2 ∧
      (pair_priority 1 2 ≠ pair_priority 2 1 ∧
        min (1 : Int) 2 = min 2 1 ∧ max (1 : Int) 2 = max 2 1) :=
  ⟨by norm_num, C8_pair_priority_asymmetry 1 2 (by norm_num)⟩

/-! ### C9 -/

/-- C9: with local preference and component fixed, candidate priority strictly
decreases along HOST > PEER_REFLEXIVE > SERVER_REFLEXIVE > RELAY. -/
theorem C9_type_preference_order (lp c : Int) :
    calculate_priority .prflx lp c < calculate_priority .host lp c ∧
    calculate_priority .srflx lp c < calculate_priority .prflx lp c ∧
    calculate_priority .relay lp c < calculate_priority .srflx lp c := by
  simp only [calculate_priority, type_preferences]
  norm_num

/-! ### C10 -/

/-- C10: every run of `perform_connectivity_check` leaves the pair in a
terminal state (SUCCEEDED or FAILED) — never IN_PROGRESS or WAITING — and the
Bool it returns is `true` exactly when the final state is SUCCEEDED. -/
theorem C10_check_terminal (pair : CandidatePair) (env : CheckEnv) :
    ((perform_connectivity_check pair env).2.state = CheckState.succeeded ∨
      (perform_connectivity_check pair env).2.state = CheckState.failed) ∧
    ((perform_connectivity_check pair env).1 = true ↔
      (perform_connectivity_check pair env).2.state = CheckState.succeeded) :=
  ⟨(perform_check_cases pair env).1, (perform_check_cases pair env).2.1⟩

/-! ### C4 -/

lemma pair_le_trans (a b c : CandidatePair) :
    pair_le a b = true → pair_le b c = true → pair_le a c = true := by
  simp only [pair_le, decide_eq_true_eq]
  omega

lemma pair_le_total (a b : CandidatePair) :
    (pair_le a b || pair_le b a) = true := by
  simp only [pair_le, Bool.or_eq_true, decide_eq_true_eq]
  omega

lemma cross_eq_product_filter (L R : List ICECandidate) :
    L.flatMap (fun l =>
        (R.filter (fun r => l.transport == r.transport)).map (fun r => mk_pair l r))
      = ((L.product R).filter (fun lr => lr.1.transport == lr.2.transport)).map
          (fun lr => mk_pair lr.1 lr.2) := by
  simp only [List.product, List.filter_flatMap, List.map_flatMap, List.filter_map,
    List.map_map]
  rfl

/-- C4: `create_candidate_pairs` yields, as a multiset, exactly one FROZEN and
un-nominated pair for every transport-matching (local, remote) combination,
returns them sorted by pair priority descending, and maps empty input (on
either side) to the empty pair list. -/
theorem C4_create_pairs (L R : List ICECandidate) :
    (create_candidate_pairs L R).Perm
      (((L.product R).filter (fun lr => lr.1.transport == lr.2.transport)).map
        (fun lr => mk_pair lr.1 lr.2)) ∧
    (∀ p ∈ create_candidate_pairs L R,
      p.state = CheckState.frozen ∧ p.nominated = false) ∧
    (create_candidate_pairs L R).Pairwise (fun a b => b.priority ≤ a.priority) ∧
    (L = [] ∨ R = [] → create_candidate_pairs L R = []) := by
  refine ⟨?_, ?_, ?_, ?_⟩
  · exact (List.mergeSort_perm _ _).trans (by rw [cross_eq_product_filter])
  · intro p hp
    unfold create_candidate_pairs at hp
    rw [(List.mergeSort_perm _ _).mem_iff] at hp
    simp only [List.mem_flatMap, List.mem_map, List.mem_filter] at hp
    obtain ⟨l, _, r, _, rfl⟩ := hp
    exact ⟨rfl, rfl⟩
  · have h := List.sorted_mergeSort pair_le_trans pair_le_total
      (L.flatMap (fun l =>
        (R.filter (fun r => l.transport == r.transport)).map (fun r => mk_pair l r)))
    exact h.imp (by simp only [pair_le, decide_eq_true_eq]; exact id)
  · have hnil : ∀ (M : List ICECandidate),
        (M.flatMap fun _ => ([] : List CandidatePair)) = [] := by
      intro M
      induction M with
      | nil => rfl
      | cons a l ih => simp [ih]
    rintro (rfl | rfl)
    · simp [create_candidate_pairs]
    · simp [create_candidate_pairs, hnil]

theorem C4_witness :
    ((mk_pair wit_local wit_remote).state = CheckState.frozen ∧
      (mk_pair wit_local wit_remote).nominated = false) ∧
    create_candidate_pairs [] [wit_remote] = [] :=
  ⟨(C4_create_pairs [wit_local] [wit_remote]).2.1 (mk_pair wit_local wit_remote)
      (by unfold create_candidate_pairs
          exact (List.mergeSort_perm _ _).mem_iff.mpr (by decide)),
    (C4_create_pairs [] [wit_remote]).2.2.2 (Or.inl rfl)⟩

/-! ### C6 -/

/-- Bind oracle that always raises (used by the C6 counterexample). -/
def bind_fail : String → Except SockError Nat :=
  fun _ => Except.error (SockError.bind_failed "ebind")

/-- C6 counterexample: with a single interface whose UDP bind raises, host
gathering does not skip the interface and does not fall back to loopback — the
exception propagates out of `gather_host_candidates` and zero candidates are
produced, refuting the claimed skip-and-continue behavior. -/
theorem C6_counterexample :
    gather_host_candidates bind_fail ["10.0.0.1"] 0
        = Except.error (SockError.bind_failed "ebind") ∧
      (gather_host_candidates bind_fail ["10.0.0.1"] 0).isOk = false :=
  ⟨rfl, rfl⟩

/-- C6 (amended): a bind failure during host gathering is not caught —
`gather_host_candidates` succeeds exactly when every interface's bind
succeeds, and any bind failure makes the whole call raise (propagate an
error), discarding all candidates; on success there is one HOST candidate per
interface.  The loopback fallback exists only inside `get_local_interfaces`:
when detecting the outbound local IP fails, the interface list becomes
`["127.0.0.1"]`.  No `GATHERING_FAILED` condition exists anywhere — the
caller sees the raised exception instead. -/
theorem C6_bind_failure_propagates (bind_port : String → Except SockError Nat)
    (interfaces : List String) (k : Nat) (e : SockError) :
    ((gather_host_candidates bind_port interfaces k).isOk = true ↔
      ∀ itf ∈ interfaces, (bind_port itf).isOk = true) ∧
    (∀ cs, gather_host_candidates bind_port interfaces k = .ok cs →
      cs.length = interfaces.length) ∧
    get_local_interfaces (Except.error e) = ["127.0.0.1"] := by
  refine ⟨?_, ?_, rfl⟩
  · induction interfaces generalizing k with
    | nil => simp [gather_host_candidates, Except.isOk, Except.toBool]
    | cons itf rest ih =>
      rw [gather_host_candidates]
      cases hb : bind_port itf with
      | error er =>
        refine ⟨fun h => absurd h (by simp [Except.isOk, Except.toBool]), fun h => ?_⟩
        have h2 := h itf (List.mem_cons_self itf rest)
        rw [hb] at h2
        simp [Except.isOk, Except.toBool] at h2
      | ok port =>
        cases hr : gather_host_candidates bind_port rest (k + 1) with
        | error er =>
          have hrest := ih (k + 1)
          rw [hr] at hrest
          refine ⟨fun h => absurd h (by simp [Except.isOk, Except.toBool]), fun h => ?_⟩
          have h2 := hrest.mpr (fun x hx => h x (List.mem_cons_of_mem _ hx))
          simp [Except.isOk, Except.toBool] at h2
        | ok cs =>
          have hrest := ih (k + 1)
          rw [hr] at hrest
          refine ⟨fun _ x hx => ?_, fun _ => rfl⟩
          rcases List.mem_cons.mp hx with rfl | hx2
          · rw [hb]; rfl
          · exact hrest.mp rfl x hx2
  · induction interfaces generalizing k with
    | nil =>
      intro cs hcs
      simp only [gather_host_candidates, Except.ok.injEq] at hcs
      subst hcs
      rfl
    | cons itf rest ih =>
      intro cs hcs
      rw [gather_host_candidates] at hcs
      cases hb : bind_port itf with
      | error er => rw [hb] at hcs; simp at hcs
      | ok port =>
        rw [hb] at hcs
        cases hr : gather_host_candidates bind_port rest (k + 1) with
        | error er => rw [hr] at hcs; simp at hcs
        | ok cs' =>
          rw [hr] at hcs
          simp only [Except.ok.injEq] at hcs
          subst hcs
          simp [ih (k + 1) cs' hr]

theorem C6_witness :
    ((gather_host_candidates bind_ok ["10.0.0.1"] 0).isOk = true) ∧
      get_local_interfaces (Except.error (SockError.connect_failed "econn"))
        = ["127.0.0.1"] :=
  ⟨((C6_bind_failure_propagates bind_ok ["10.0.0.1"] 0
        (SockError.connect_failed "econn")).1).mpr
      (by intro itf _; rfl),
    (C6_bind_failure_propagates bind_ok ["10.0.0.1"] 0
        (SockError.connect_failed "econn")).2.2⟩

/-! ### C7 -/

/-- C7: a discovery (STUN) interaction that times out, returns fewer than 20
bytes, or echoes the wrong transaction id contributes no public address, and
whenever no public address is discovered, server-reflexive gathering yields
zero SRFLX candidates and the combined candidate set is exactly (a permutation
of) the host candidates.  The embedding is a total function, so no exception
escapes on any of these paths. -/
theorem C7_stun_failures_nonfatal (transaction_id : List Nat)
    (net : Option (List Nat)) (lc hostc : List ICECandidate) :
    discover_public_address transaction_id none = none ∧
    (∀ resp : List Nat, resp.length < 20 →
      parse_stun_outcome transaction_id resp = none) ∧
    (∀ resp : List Nat, (resp.drop 8).take 12 ≠ transaction_id →
      parse_stun_outcome transaction_id resp = none) ∧
    (discover_public_address transaction_id net = none →
      gather_server_reflexive_candidates lc
          (discover_public_address transaction_id net) = [] ∧
      (gather_candidates hostc
          (gather_server_reflexive_candidates lc
            (discover_public_address transaction_id net))).Perm hostc) := by
  refine ⟨rfl, ?_, ?_, ?_⟩
  · intro resp h
    simp [parse_stun_outcome, h]
  · intro resp h
    unfold parse_stun_outcome
    split_ifs <;> simp_all
  · intro h
    rw [h]
    refine ⟨rfl, ?_⟩
    unfold gather_server_reflexive_candidates gather_candidates
    simpa using List.mergeSort_perm hostc cand_le

/-- Concrete transaction id used by the C7 witness. -/
def wit_txid : List Nat := [1, 2, 3, 4, 5, 6, 7, 8, 9, 10, 11, 12]

theorem C7_witness :
    parse_stun_outcome wit_txid [0, 1] = none ∧
    gather_server_reflexive_candidates [wit_local]
        (discover_public_address wit_txid none) = [] :=
  ⟨(C7_stun_failures_nonfatal wit_txid none [wit_local] []).2.1 [0, 1] (by decide),
    ((C7_stun_failures_nonfatal wit_txid none [wit_local] []).2.2.2 rfl).1⟩

/-! ### Helper lemmas for the connectivity-check batch -/

lemma get_congr_idx {α : Type} (l : List α) {i j : Nat} (hij : i = j)
    (hi : i < l.length) (hj : j < l.length) :
    l.get ⟨i, hi⟩ = l.get ⟨j, hj⟩ := by
  cases hij
  rfl

lemma unfreeze_length (ps : List CandidatePair) :
    (unfreeze_top_pairs ps).length = ps.length := by
  simp only [unfreeze_top_pairs, List.length_append, List.length_map, List.length_take,
    List.length_drop]
  omega

lemma run_checks_length (env_of : Nat → CheckEnv) (ps : List CandidatePair) :
    (run_checks env_of ps).length = ps.length := by
  simp [run_checks, List.enum_length]

lemma nominate_first_length (ps : List CandidatePair) :
    (nominate_first ps).1.length = ps.length := by
  induction ps with
  | nil => rfl
  | cons p ps ih =>
    simp only [nominate_first]
    split_ifs <;> simp [ih]

lemma unfreeze_map_field {β : Type} (g : CandidatePair → β)
    (hg : ∀ p, g { p with state := CheckState.waiting } = g p)
    (ps : List CandidatePair) :
    (unfreeze_top_pairs ps).map g = ps.map g := by
  unfold unfreeze_top_pairs
  rw [List.map_append, List.map_map]
  have hc : (g ∘ fun p => { p with state := CheckState.waiting }) = g := funext hg
  rw [hc, ← List.map_append, List.take_append_drop]

lemma run_checks_map_field {β : Type} (g : CandidatePair → β)
    (hg : ∀ p e, g (perform_connectivity_check p e).2 = g p)
    (env_of : Nat → CheckEnv) (ps : List CandidatePair) :
    (run_checks env_of ps).map g = ps.map g := by
  unfold run_checks
  rw [List.map_map]
  have hc : ∀ ip ∈ ps.enum,
      (g ∘ fun ip => if ip.2.state = CheckState.waiting then
        (perform_connectivity_check ip.2 (env_of ip.1)).2 else ip.2) ip
        = (g ∘ Prod.snd) ip := by
    intro ip _
    simp only [Function.comp_apply]
    split_ifs <;> simp [hg]
  rw [List.map_congr_left hc, ← List.map_map, List.enum_map_snd]

lemma nominate_first_map_field {β : Type} (g : CandidatePair → β)
    (hg : ∀ p, g { p with nominated := true } = g p) (ps : List CandidatePair) :
    (nominate_first ps).1.map g = ps.map g := by
  induction ps with
  | nil => rfl
  | cons p ps ih =>
    simp only [nominate_first]
    split_ifs <;> simp [hg, ih]

lemma mem_field_transfer {β : Type} (g : CandidatePair → β)
    {l₁ l₂ : List CandidatePair} (hmap : l₁.map g = l₂.map g) {P : β → Prop}
    (h : ∀ p ∈ l₂, P (g p)) : ∀ p ∈ l₁, P (g p) := by
  intro p hp
  have hm : g p ∈ l₂.map g := hmap ▸ List.mem_map_of_mem g hp
  obtain ⟨q, hq, he⟩ := List.mem_map.mp hm
  exact he ▸ h q hq

lemma get_of_map_eq {β : Type} (f : CandidatePair → β) {l₁ l₂ : List CandidatePair}
    (hmap : l₁.map f = l₂.map f) (i : Nat) (h1 : i < l₁.length) (h2 : i < l₂.length) :
    f (l₁.get ⟨i, h1⟩) = f (l₂.get ⟨i, h2⟩) := by
  have h := congrArg (fun l => l[i]?) hmap
  simp only [List.getElem?_map, List.getElem?_eq_getElem h1,
    List.getElem?_eq_getElem h2, Option.map_some] at h
  simpa using h

lemma unfreeze_get_lt (ps : List CandidatePair) (i : Nat) (h : i < ps.length)
    (h3 : i < 3) (h2 : i < (unfreeze_top_pairs ps).length) :
    (unfreeze_top_pairs ps).get ⟨i, h2⟩
      = { ps.get ⟨i, h⟩ with state := CheckState.waiting } := by
  simp only [List.get_eq_getElem]
  simp only [unfreeze_top_pairs] at h2 ⊢
  have hlt : i < ((ps.take 3).map
      (fun p => { p with state := CheckState.waiting })).length := by
    simp only [List.length_map, List.length_take]
    omega
  rw [List.getElem_append_left hlt, List.getElem_map, List.getElem_take]

lemma unfreeze_get_ge (ps : List CandidatePair) (i : Nat) (h : i < ps.length)
    (h3 : 3 ≤ i) (h2 : i < (unfreeze_top_pairs ps).length) :
    (unfreeze_top_pairs ps).get ⟨i, h2⟩ = ps.get ⟨i, h⟩ := by
  simp only [List.get_eq_getElem]
  simp only [unfreeze_top_pairs] at h2 ⊢
  have hge : ((ps.take 3).map
      (fun p => { p with state := CheckState.waiting })).length ≤ i := by
    simp only [List.length_map, List.length_take]
    omega
  rw [List.getElem_append_right hge, List.getElem_drop]
  apply get_congr_idx
  simp only [List.length_map, List.length_take]
  omega

lemma run_checks_get (env_of : Nat → CheckEnv) (ps : List CandidatePair) (i : Nat)
    (h : i < ps.length) (h2 : i < (run_checks env_of ps).length) :
    (run_checks env_of ps).get ⟨i, h2⟩
      = if (ps.get ⟨i, h⟩).state = CheckState.waiting then
          (perform_connectivity_check (ps.get ⟨i, h⟩) (env_of i)).2
        else ps.get ⟨i, h⟩ := by
  simp only [List.get_eq_getElem, run_checks]
  simp only [run_checks] at h2
  rw [List.getElem_map, List.getElem_enum]

lemma nominate_getElem?_not_succ :
    ∀ (ps : List CandidatePair) (i : Nat),
      (∀ p, ps[i]? = some p → p.state ≠ CheckState.succeeded) →
      (nominate_first ps).1[i]? = ps[i]? := by
  intro ps
  induction ps with
  | nil => intro i _; rfl
  | cons p ps ih =>
    intro i hs
    by_cases hp : p.state = CheckState.succeeded
    · have h1 : (nominate_first (p :: ps)).1 = { p with nominated := true } :: ps := by
        simp [nominate_first, hp]
      rw [h1]
      cases i with
      | zero => exact absurd hp (hs p (by simp))
      | succ j => simp [List.getElem?_cons_succ]
    · have h1 : (nominate_first (p :: ps)).1 = p :: (nominate_first ps).1 := by
        simp [nominate_first, hp]
      rw [h1]
      cases i with
      | zero => simp
      | succ j =>
        simp only [List.getElem?_cons_succ]
        exact ih j (fun q hq => hs q (by simpa using hq))

lemma nominate_get_not_succ (ps : List CandidatePair) (i : Nat)
    (h2 : i < (nominate_first ps).1.length) (h : i < ps.length)
    (hs : (ps.get ⟨i, h⟩).state ≠ CheckState.succeeded) :
    (nominate_first ps).1.get ⟨i, h2⟩ = ps.get ⟨i, h⟩ := by
  have hq := nominate_getElem?_not_succ ps i (fun p hp => by
    have he : p = ps.get ⟨i, h⟩ := by
      rw [List.getElem?_eq_getElem h] at hp
      simpa [List.get_eq_getElem] using hp.symm
    rw [he]
    exact hs)
  rw [List.getElem?_eq_getElem h2, List.getElem?_eq_getElem h] at hq
  simpa [List.get_eq_getElem] using hq

lemma nominate_first_spec (ps : List CandidatePair) :
    ((nominate_first ps).2 = false →
      (nominate_first ps).1 = ps ∧ ∀ p ∈ ps, p.state ≠ CheckState.succeeded) ∧
    ((nominate_first ps).2 = true →
      ∃ front q back,
        ps = front ++ q :: back ∧
        (nominate_first ps).1 = front ++ { q with nominated := true } :: back ∧
        q.state = CheckState.succeeded ∧
        ∀ p ∈ front, p.state ≠ CheckState.succeeded) := by
  induction ps with
  | nil => exact ⟨fun _ => ⟨rfl, by simp⟩, fun h => by simp [nominate_first] at h⟩
  | cons p ps ih =>
    by_cases hp : p.state = CheckState.succeeded
    · refine ⟨fun hf => ?_, fun _ => ?_⟩
      · simp [nominate_first, hp] at hf
      · exact ⟨[], p, ps, by simp, by simp [nominate_first, hp], hp, by simp⟩
    · constructor
      · intro hf
        simp only [nominate_first, if_neg hp] at hf ⊢
        obtain ⟨h1, h2⟩ := ih.1 hf
        refine ⟨by rw [h1], ?_⟩
        intro x hx
        rcases List.mem_cons.mp hx with rfl | hx2
        · exact hp
        · exact h2 x hx2
      · intro ht
        simp only [nominate_first, if_neg hp] at ht ⊢
        obtain ⟨front, q, back, e1, e2, e3, e4⟩ := ih.2 ht
        refine ⟨p :: front, q, back, by rw [List.cons_append, ← e1], ?_, e3, ?_⟩
        · rw [List.cons_append, ← e2]
        · intro x hx
          rcases List.mem_cons.mp hx with rfl | hx2
          · exact hp
          · exact e4 x hx2

/-! ### C3 -/

/-- C3: starting from un-nominated pairs sorted by pair priority descending, a
check batch nominates at most one pair; list order (hence descending priority
order) is preserved; any nominated pair is SUCCEEDED; when the method returns
`true` the nominated pair is the first SUCCEEDED pair in list order (everything
before it is un-succeeded, everything after it un-nominated); and the method
returns `false` exactly when no pair succeeded, in which case no pair is
nominated — the failure is the explicit Bool result. -/
theorem C3_nomination_exclusivity (env_of : Nat → CheckEnv)
    (pairs : List CandidatePair)
    (hnom : ∀ p ∈ pairs, p.nominated = false)
    (hsort : pairs.Pairwise (fun a b => b.priority ≤ a.priority)) :
    ((run_connectivity_checks env_of pairs).1.countP (fun p => p.nominated) ≤ 1) ∧
    ((run_connectivity_checks env_of pairs).1.Pairwise
      (fun a b => b.priority ≤ a.priority)) ∧
    (∀ p ∈ (run_connectivity_checks env_of pairs).1,
      p.nominated = true → p.state = CheckState.succeeded) ∧
    ((run_connectivity_checks env_of pairs).2 = true →
      ∃ front q back,
        (run_connectivity_checks env_of pairs).1 = front ++ q :: back ∧
        q.nominated = true ∧ q.state = CheckState.succeeded ∧
        (∀ p ∈ front, p.state ≠ CheckState.succeeded ∧ p.nominated = false) ∧
        (∀ p ∈ back, p.nominated = false)) ∧
    ((run_connectivity_checks env_of pairs).2 = false ↔
      ∀ p ∈ (run_connectivity_checks env_of pairs).1,
        p.state ≠ CheckState.succeeded) ∧
    ((run_connectivity_checks env_of pairs).2 = false →
      ∀ p ∈ (run_connectivity_checks env_of pairs).1, p.nominated = false) := by
  simp only [run_connectivity_checks]
  set ps2 := run_checks env_of (unfreeze_top_pairs pairs) with hps2
  have hnom_map : ps2.map (fun p => p.nominated) = pairs.map (fun p => p.nominated) := by
    rw [hps2,
      run_checks_map_field (fun p => p.nominated)
        (fun p e => (perform_check_cases p e).2.2.2.1) env_of,
      unfreeze_map_field (fun p => p.nominated) (fun p => rfl)]
  have hpri_map : ps2.map (fun p => p.priority) = pairs.map (fun p => p.priority) := by
    rw [hps2,
      run_checks_map_field (fun p => p.priority)
        (fun p e => (perform_check_cases p e).2.2.1) env_of,
      unfreeze_map_field (fun p => p.priority) (fun p => rfl)]
  have hnom2 : ∀ p ∈ ps2, p.nominated = false :=
    mem_field_transfer (fun p => p.nominated) hnom_map (P := fun b => b = false) hnom
  have hres_pri : (nominate_first ps2).1.map (fun p => p.priority)
      = pairs.map (fun p => p.priority) := by
    rw [nominate_first_map_field (fun p => p.priority) (fun p => rfl), hpri_map]
  have hres_sorted : (nominate_first ps2).1.Pairwise
      (fun a b => b.priority ≤ a.priority) := by
    have h1 : (pairs.map (fun p => p.priority)).Pairwise (fun a b => b ≤ a) :=
      List.pairwise_map.mpr hsort
    rw [← hres_pri] at h1
    exact List.pairwise_map.mp h1
  have spec := nominate_first_spec ps2
  cases hb : (nominate_first ps2).2 with
  | false =>
    obtain ⟨he, hns⟩ := spec.1 hb
    refine ⟨?_, hres_sorted, ?_, ?_, ?_, ?_⟩
    · rw [he, List.countP_eq_zero.mpr (fun a ha => by simp [hnom2 a ha])]
      omega
    · rw [he]
      intro p hp hpt
      exact absurd hpt (by simp [hnom2 p hp])
    · intro h
      exact absurd h (by simp)
    · refine ⟨fun _ => ?_, fun _ => rfl⟩
      rw [he]
      exact hns
    · intro _
      rw [he]
      exact hnom2
  | true =>
    obtain ⟨front, q, back, e1, e2, e3, e4⟩ := spec.2 hb
    have hfront_nom : ∀ p ∈ front, p.nominated = false := fun p hp =>
      hnom2 p (by rw [e1]; exact List.mem_append_left _ hp)
    have hback_nom : ∀ p ∈ back, p.nominated = false := fun p hp =>
      hnom2 p (by rw [e1]; exact List.mem_append_right _ (List.mem_cons_of_mem _ hp))
    refine ⟨?_, hres_sorted, ?_, ?_, ?_, ?_⟩
    · rw [e2, List.countP_append, List.countP_cons,
        List.countP_eq_zero.mpr (fun a ha => by simp [hfront_nom a ha]),
        List.countP_eq_zero.mpr (fun a ha => by simp [hback_nom a ha])]
      simp
    · intro p hp hpn
      rw [e2] at hp
      rcases List.mem_append.mp hp with hf | hqb
      · exact absurd hpn (by simp [hfront_nom p hf])
      · rcases List.mem_cons.mp hqb with rfl | hbk
        · exact e3
        · exact absurd hpn (by simp [hback_nom p hbk])
    · intro _
      exact ⟨front, { q with nominated := true }, back, e2, rfl, e3,
        fun p hp => ⟨e4 p hp, hfront_nom p hp⟩, hback_nom⟩
    · refine ⟨fun h => absurd h (by simp), fun hall => ?_⟩
      have hqmem : { q with nominated := true } ∈ (nominate_first ps2).1 := by
        rw [e2]
        exact List.mem_append_right _ (List.mem_cons_self _ _)
      exact absurd e3 (hall { q with nominated := true } hqmem)
    · intro h
      exact absurd h (by simp)

/-- Concrete pair and probe environment used by the C3/C5 witnesses. -/
def wit_pair : CandidatePair := mk_pair wit_local wit_remote

/-- Probe environment where every probe times out. -/
def wit_env : Nat → CheckEnv :=
  fun _ => { setup_error := false, recv := RecvOutcome.timeout }

theorem C3_witness :
    (run_connectivity_checks wit_env [wit_pair]).1.countP (fun p => p.nominated) ≤ 1 :=
  (C3_nomination_exclusivity wit_env [wit_pair] (by decide) (by simp)).1

/-! ### C5 -/

/-- C5: starting from an all-FROZEN, un-nominated pair list, the batch
unfreezes exactly the first three pairs (FROZEN→WAITING) and probes exactly
those (each ends SUCCEEDED or FAILED); every pair at index ≥ 3 is returned
entirely unchanged — still FROZEN and un-nominated — even when all three
probes fail, and the batch preserves the list length. -/
theorem C5_top3_frame (env_of : Nat → CheckEnv) (pairs : List CandidatePair)
    (hfroz : ∀ p ∈ pairs, p.state = CheckState.frozen ∧ p.nominated = false) :
    ((run_connectivity_checks env_of pairs).1.length = pairs.length) ∧
    (∀ i (h2 : i < (unfreeze_top_pairs pairs).length), i < 3 →
      ((unfreeze_top_pairs pairs).get ⟨i, h2⟩).state = CheckState.waiting) ∧
    (∀ i (hr : i < (run_connectivity_checks env_of pairs).1.length), i < 3 →
      (((run_connectivity_checks env_of pairs).1.get ⟨i, hr⟩).state
          = CheckState.succeeded ∨
        ((run_connectivity_checks env_of pairs).1.get ⟨i, hr⟩).state
          = CheckState.failed)) ∧
    (∀ i (hr : i < (run_connectivity_checks env_of pairs).1.length)
        (h : i < pairs.length), 3 ≤ i →
      (run_connectivity_checks env_of pairs).1.get ⟨i, hr⟩ = pairs.get ⟨i, h⟩ ∧
      ((run_connectivity_checks env_of pairs).1.get ⟨i, hr⟩).state
        = CheckState.frozen ∧
      ((run_connectivity_checks env_of pairs).1.get ⟨i, hr⟩).nominated = false) := by
  simp only [run_connectivity_checks]
  have hlen2 : (run_checks env_of (unfreeze_top_pairs pairs)).length = pairs.length := by
    rw [run_checks_length, unfreeze_length]
  refine ⟨?_, ?_, ?_, ?_⟩
  · rw [nominate_first_length, hlen2]
  · intro i h2 h3
    have h : i < pairs.length := by simpa [unfreeze_length] using h2
    rw [unfreeze_get_lt pairs i h h3 h2]
  · intro i hr h3
    have h : i < pairs.length := by
      rw [nominate_first_length, hlen2] at hr
      exact hr
    have h2 : i < (run_checks env_of (unfreeze_top_pairs pairs)).length := by
      rw [hlen2]
      exact h
    have hmap := nominate_first_map_field (fun p => p.state) (fun p => rfl)
      (run_checks env_of (unfreeze_top_pairs pairs))
    have hstate := get_of_map_eq (fun p => p.state) hmap i hr h2
    rw [hstate, run_checks_get env_of (unfreeze_top_pairs pairs) i
      (by rw [unfreeze_length]; exact h) h2,
      unfreeze_get_lt pairs i h h3 (by rw [unfreeze_length]; exact h)]
    rw [if_pos rfl]
    exact (perform_check_cases _ _).1
  · intro i hr h h3
    have h2 : i < (run_checks env_of (unfreeze_top_pairs pairs)).length := by
      rw [hlen2]
      exact h
    have hu : i < (unfreeze_top_pairs pairs).length := by
      rw [unfreeze_length]
      exact h
    have hfz := (hfroz (pairs.get ⟨i, h⟩) (pairs.get_mem _ _)).1
    have e1 : (run_checks env_of (unfreeze_top_pairs pairs)).get ⟨i, h2⟩
        = pairs.get ⟨i, h⟩ := by
      rw [run_checks_get env_of (unfreeze_top_pairs pairs) i hu h2,
        unfreeze_get_ge pairs i h h3 hu, if_neg (by rw [hfz]; intro hc; cases hc)]
    have e2 : (nominate_first
        (run_checks env_of (unfreeze_top_pairs pairs))).1.get ⟨i, hr⟩
        = pairs.get ⟨i, h⟩ := by
      rw [nominate_get_not_succ _ i hr h2 (by rw [e1, hfz]; intro hc; cases hc), e1]
    refine ⟨e2, ?_, ?_⟩
    · rw [e2]
      exact hfz
    · rw [e2]
      exact (hfroz (pairs.get ⟨i, h⟩) (pairs.get_mem _ _)).2

theorem C5_witness :
    (run_connectivity_checks wit_env [wit_pair]).1.length = [wit_pair].length :=
  (C5_top3_frame wit_env [wit_pair] (by decide)).1
